import Mathlib

/-!
# Verification of the TMVA-models notebooks

Shallow embedding of the shared `Trainer` wrapper (learning-rate schedule,
epoch loss logging, arg-max prediction, accuracy scoring, checkpoint
save/load) and of the `get_dataset` data-loading helper from the two
PyTorch notebooks, together with theorems settling the specification
claims about them.

Numeric values (learning rates, losses, network outputs, the
`test_split` fraction) are modelled as rationals; machine arrays are
modelled as lists; NumPy's seeded pseudo-random generator is modelled as
an explicit deterministic generator state threaded through the
computation.
-/

set_option maxRecDepth 4096

/-! ## Model of the seeded NumPy random generator

`np.random.seed(k)` puts the global generator into a state that is a
fixed function of `k`; every draw is then a deterministic function of
the current state.  We model the generator state as a natural number and
a draw as a linear-congruential step; `np.random.shuffle` is modelled as
the Fisher-Yates-style selection shuffle driven by such draws, and
`np.random.permutation n` as the same shuffle of `range n`, matching
NumPy's documented behaviour of shuffling `arange(n)`. -/

/-- One step of the deterministic generator: next raw draw from a state. -/
def lcg (s : ℕ) : ℕ := (s * 1103515245 + 12345) % 4294967296

/-- Draw a value `< n` (for `n > 0`) and return it with the new state. -/
def randBelow (s n : ℕ) : ℕ × ℕ :=
  let s2 := lcg s
  (s2 % n, s2)

/-- Selection shuffle with explicit fuel (the fuel is the list length, so
it never runs out): repeatedly draw an index below the current length,
move that element to the front of the output, and recurse on the rest. -/
def npShuffleGo {α : Type*} : ℕ → ℕ → List α → List α × ℕ
  | 0, s, _ => ([], s)
  | _ + 1, s, [] => ([], s)
  | n + 1, s, a :: tl =>
    let s2 := lcg s
    let j : Fin (tl.length + 1) := ⟨s2 % (tl.length + 1), Nat.mod_lt _ (Nat.succ_pos _)⟩
    let r := npShuffleGo n s2 ((a :: tl).eraseIdx j)
    ((a :: tl).get j :: r.1, r.2)

/-- Model of `np.random.shuffle`: deterministically permute a list, given
the generator state; returns the shuffled list and the new state. -/
def npShuffle {α : Type*} (s : ℕ) (l : List α) : List α × ℕ :=
  npShuffleGo l.length s l

/-- Model of `np.random.permutation n`: a deterministic permutation of
`[0, …, n-1]`, together with the new generator state. -/
def npPermutation (s n : ℕ) : List ℕ × ℕ :=
  npShuffle s (List.range n)

/-- NumPy fancy indexing `l[idx]`: the list of elements of `l` at the
positions listed in `idx` (positions out of range contribute nothing;
in all uses below every position is in range). -/
def indexBy {α : Type*} (l : List α) (idx : List ℕ) : List α :=
  idx.filterMap fun i => l.get? i

/-! ## Python-level helpers used by `get_dataset` -/

/-- Python `int(q)`: truncation toward zero. -/
def pyInt (q : ℚ) : ℤ := if 0 ≤ q then ⌊q⌋ else -⌊-q⌋

/-- `test_size = int(len(data) * test_split)` from `get_dataset`. -/
def pyTestSize (n : ℕ) (split : ℚ) : ℕ := (pyInt ((n : ℚ) * split)).toNat

/-- Python slice `data[:-t]` for `t : ℕ`: everything but the last `t`
elements when `t > 0`, and the empty list when `t = 0` (since `-0 = 0`,
`data[:-0]` is `data[:0]`). -/
def pySliceToNeg {α : Type*} (l : List α) (t : ℕ) : List α :=
  if t = 0 then [] else l.take (l.length - t)

/-- Python slice `data[-t:]` for `t : ℕ`: the last `t` elements when
`t > 0`, and the whole list when `t = 0` (since `data[-0:]` is `data[0:]`). -/
def pySliceFromNeg {α : Type*} (l : List α) (t : ℕ) : List α :=
  if t = 0 then l else l.drop (l.length - t)

/-! ## `get_dataset`

The notebooks' `get_dataset` reads a signal tree and a background tree
from the ROOT file, asserts `0 <= test_split <= 0.3`, reseeds the global
generator with `np.random.seed(0)`, and then, for the signal tree
(label 0) followed by the background tree (label 1): shuffles the tree's
rows in place, computes `test_size = int(len(data) * test_split)`,
appends `data[:-test_size]` to `X_train`, `data[-test_size:]` to
`X_test`, and the matching constant label blocks to `Y_train`/`Y_test`.
It then asserts `len(Y_train) == len(X_train)` and
`len(Y_test) == len(X_test)`, and finally applies one fresh random index
permutation to `X_train` and `Y_train` and another to `X_test` and
`Y_test`.

The embedding below takes the already-read tree contents as lists (the
rows are opaque values of type `α`; the per-row `reshape(-1)` massaging
does not affect which rows go where) and an incoming generator state
`rng0`, which the function discards exactly where the source calls
`np.random.seed(0)`.  A failed `assert` is an `Except.error
"AssertionError"`. -/

/-- The four lists built by the per-tree loop of `get_dataset` (after the
two in-place shuffles and the slicing), plus the generator state left
after the two shuffles. -/
structure RawSplit (α : Type*) where
  xtr : List α
  ytr : List ℕ
  xte : List α
  yte : List ℕ
  rng : ℕ

/-- The per-tree loop of `get_dataset`, unrolled over the two trees:
shuffle the signal tree (label 0), then the background tree (label 1),
slice each into train/test parts and build the constant label blocks. -/
def buildRaw {α : Type*} (sig bkg : List α) (split : ℚ) : RawSplit α :=
  let r1 := npShuffle 0 sig
  let r2 := npShuffle r1.2 bkg
  let t0 := pyTestSize sig.length split
  let t1 := pyTestSize bkg.length split
  { xtr := pySliceToNeg r1.1 t0 ++ pySliceToNeg r2.1 t1
    ytr := List.replicate (sig.length - t0) 0 ++ List.replicate (bkg.length - t1) 1
    xte := pySliceFromNeg r1.1 t0 ++ pySliceFromNeg r2.1 t1
    yte := List.replicate t0 0 ++ List.replicate t1 1
    rng := r2.2 }

/-- The final "Shuffling the data" block of `get_dataset`: draw a fresh
index permutation for the train set and index both `X_train` and
`Y_train` by it, then the same for the test set. -/
def finalShuffle {α : Type*} (raw : RawSplit α) :
    (List α × List ℕ) × (List α × List ℕ) :=
  let p1 := npPermutation raw.rng raw.xtr.length
  let p2 := npPermutation p1.2 raw.xte.length
  ((indexBy raw.xtr p1.1, indexBy raw.ytr p1.1),
   (indexBy raw.xte p2.1, indexBy raw.yte p2.1))

/-- `get_dataset` on already-read tree contents: range-check the split,
reseed (discarding `rng0`), run the per-tree loop, check the two length
assertions, and apply the final shuffles.  Returns
`((X_train, Y_train), (X_test, Y_test))` or an `AssertionError`. -/
def get_dataset {α : Type*} (rng0 : ℕ) (sig bkg : List α) (split : ℚ) :
    Except String ((List α × List ℕ) × (List α × List ℕ)) :=
  if 0 ≤ split ∧ split ≤ 3 / 10 then
    if (buildRaw sig bkg split).ytr.length = (buildRaw sig bkg split).xtr.length ∧
        (buildRaw sig bkg split).yte.length = (buildRaw sig bkg split).xte.length then
      Except.ok (finalShuffle (buildRaw sig bkg split))
    else Except.error "AssertionError"
  else Except.error "AssertionError"

/-! ## The `Trainer` wrapper -/

namespace Trainer

/-- The learning rate in effect during epoch `e` of `Trainer.train`
(`lrSchedule lr0 decay 0 = lr0` is the value before the first epoch):
at the start of each epoch the source does `if (epoch % decay == 0): lr /= 3`,
and the resulting `lr` is the one handed to the freshly constructed SGD
optimizer for that epoch. -/
def lrSchedule (lr0 : ℚ) (decay : ℕ) : ℕ → ℚ
  | 0 => lr0
  | e + 1 =>
    if (e + 1) % decay = 0 then lrSchedule lr0 decay e / 3
    else lrSchedule lr0 decay e

/-- The epoch's `tot_loss` accumulator just before the division: starts
at `0.0` and adds `loss.item()` for every batch of the epoch. -/
def epochTotLoss (batchLosses : List ℚ) : ℚ :=
  batchLosses.foldl (fun acc l => acc + l) 0

/-- `len(trainloader)` for a `DataLoader` over `n` samples with batch
size `b` and `drop_last` left at its default `False`: the number of
batches, i.e. `⌈n / b⌉`. -/
def numBatches (n b : ℕ) : ℕ := (n + b - 1) / b

/-- Rounding to 7 decimal places, the effect of the `'%.7f'` format the
source applies to `tot_loss` before logging it.  (The format rounds to
the nearest multiple of `10⁻⁷`; the tie-breaking direction is immaterial
to every result below.) -/
def round7 (q : ℚ) : ℚ := (round (q * 10 ^ 7) : ℚ) / 10 ^ 7

/-- The `loss` field of the JSON record `Trainer.train` logs for an
epoch: `tot_loss` divided by `len(trainloader)` and formatted with
`'%.7f'`. -/
def loggedEpochLoss (batchLosses : List ℚ) : ℚ :=
  round7 (epochTotLoss batchLosses / batchLosses.length)

/-- Inner loop of `np.argmax`: scan the remaining entries, keeping the
best value and its (first) index; `i` is the position of the head of the
remaining list in the original row. -/
def npArgmaxGo : List ℚ → ℚ → ℕ → ℕ → ℕ
  | [], _, bi, _ => bi
  | x :: tl, bv, bi, i =>
    if bv < x then npArgmaxGo tl x i (i + 1) else npArgmaxGo tl bv bi (i + 1)

/-- `np.argmax` of one row: the first index holding the row's maximum
value (NumPy errors on an empty row; the value at `[]` is immaterial). -/
def npArgmax : List ℚ → ℕ
  | [] => 0
  | a :: tl => npArgmaxGo tl a 0 1

/-- `Trainer.predict`: run the network on the whole input batch and take
`np.argmax(…, axis=1)` of the output matrix.  The network is a parameter
(its forward pass is framework code): it maps the batch to the output
matrix, one row of class scores per input row. -/
def predict {α : Type*} (net : List α → List (List ℚ)) (inputs : List α) : List ℕ :=
  (net inputs).map npArgmax

/-- `np.sum(pred == Y)`: the number of positions where the two label
vectors agree. -/
def countMatches (p y : List ℕ) : ℕ :=
  (List.zipWith (fun a b => if a = b then 1 else 0) p y).sum

/-- `Trainer.score`: accuracy, `np.sum(pred == Y) / len(Y)`. -/
def score {α : Type*} (net : List α → List (List ℚ)) (X : List α) (Y : List ℕ) : ℚ :=
  (countMatches (predict net X) Y : ℚ) / (Y.length : ℚ)

/-- A state dict, as saved and loaded by the checkpoint methods: a keyed
collection of tensors (parameters and buffers), each modelled as its
flattened list of entries. -/
abbrev StateDict := List (String × List ℚ)

/-- The persistent state of a trainer's network: its state dict. -/
structure NetState where
  stateDict : StateDict

/-- A file system, as the checkpoint methods see it: contents (a state
dict, for the files `torch.save` wrote) by path. -/
abbrev Storage := String → Option StateDict

/-- `torch.save(model.state_dict(), checkpoint_path)`: write the dict at
the path. -/
def torchSave (fs : Storage) (sd : StateDict) (path : String) : Storage :=
  fun q => if q = path then some sd else fs q

/-- `Trainer.save_model` (with the default `model=None`, so the
trainer's own net): save the net's state dict at the checkpoint path. -/
def save_model (t : NetState) (fs : Storage) (path : String) : Storage :=
  torchSave fs t.stateDict path

/-- `model.load_state_dict(sd)` in its default strict mode: succeeds and
replaces the net's state exactly when the keys of the loaded dict match
the keys of the model's own state dict (same architecture), and raises
otherwise. -/
def load_state_dict (t : NetState) (sd : StateDict) : Except String NetState :=
  if sd.map Prod.fst = t.stateDict.map Prod.fst then Except.ok ⟨sd⟩
  else Except.error "RuntimeError"

/-- `Trainer.load_model` (default `model=None`): read the checkpoint at
the path (`torch.load`, with or without the CPU `map_location` — the
loaded dict is the same either way) and `load_state_dict` it into the
trainer's net. -/
def load_model (t : NetState) (fs : Storage) (path : String) : Except String NetState :=
  match fs path with
  | none => Except.error "FileNotFoundError"
  | some sd => load_state_dict t sd

end Trainer

/-! ## Helper lemmas: the shuffle model produces permutations -/

theorem perm_get_cons_eraseIdx {α : Type*} :
    ∀ (l : List α) (j : ℕ) (h : j < l.length),
      l.Perm (l.get ⟨j, h⟩ :: l.eraseIdx j)
  | a :: tl, 0, _ => by simp
  | a :: tl, j + 1, h => by
    have hj : j < tl.length := Nat.lt_of_succ_lt_succ h
    have ih := perm_get_cons_eraseIdx tl j hj
    have h1 : (a :: tl).Perm (a :: tl.get ⟨j, hj⟩ :: tl.eraseIdx j) := ih.cons a
    have h2 : (a :: tl.get ⟨j, hj⟩ :: tl.eraseIdx j).Perm
        (tl.get ⟨j, hj⟩ :: a :: tl.eraseIdx j) := List.Perm.swap _ _ _
    exact h1.trans h2

theorem npShuffleGo_perm {α : Type*} :
    ∀ (n s : ℕ) (l : List α), l.length ≤ n → (npShuffleGo n s l).1.Perm l
  | 0, s, l, h => by
    have : l = [] := List.eq_nil_of_length_eq_zero (Nat.le_zero.mp h)
    subst this; simp [npShuffleGo]
  | n + 1, s, [], _ => by simp [npShuffleGo]
  | n + 1, s, a :: tl, h => by
    simp only [npShuffleGo]
    set j : Fin (tl.length + 1) :=
      ⟨lcg s % (tl.length + 1), Nat.mod_lt _ (Nat.succ_pos _)⟩ with hj
    have hlt : (j : ℕ) < (a :: tl).length := j.isLt
    have herase : ((a :: tl).eraseIdx j).length ≤ n := by
      rw [List.length_eraseIdx_of_lt hlt]
      simpa using Nat.le_of_succ_le_succ h
    have ih := npShuffleGo_perm n (lcg s) ((a :: tl).eraseIdx j) herase
    exact ((ih.cons _).trans (perm_get_cons_eraseIdx (a :: tl) j hlt).symm)

theorem npShuffle_perm {α : Type*} (s : ℕ) (l : List α) :
    (npShuffle s l).1.Perm l :=
  npShuffleGo_perm l.length s l le_rfl

theorem npShuffle_length {α : Type*} (s : ℕ) (l : List α) :
    (npShuffle s l).1.length = l.length :=
  (npShuffle_perm s l).length_eq

theorem npPermutation_perm (s n : ℕ) :
    (npPermutation s n).1.Perm (List.range n) :=
  npShuffle_perm s (List.range n)

/-! ## Helper lemmas: fancy indexing by an index permutation -/

theorem indexBy_range {α : Type*} : ∀ l : List α, indexBy l (List.range l.length) = l := by
  intro l
  induction l with
  | nil => rfl
  | cons a tl ih =>
    show indexBy (a :: tl) (List.range (tl.length + 1)) = a :: tl
    rw [indexBy, List.range_succ_eq_map, List.filterMap_cons, List.filterMap_map]
    simp only [List.get?]
    exact congrArg (a :: ·) ih

theorem indexBy_perm {α : Type*} (l : List α) (idx : List ℕ)
    (h : idx.Perm (List.range l.length)) : (indexBy l idx).Perm l := by
  have := h.filterMap (fun i => l.get? i)
  rw [show (List.range l.length).filterMap (fun i => l.get? i) = l from indexBy_range l] at this
  exact this

theorem zip_get?_of_lt {α β : Type*} :
    ∀ (X : List α) (Y : List β) (i : ℕ) (hx : i < X.length) (hy : i < Y.length),
      (X.zip Y).get? i = some (X.get ⟨i, hx⟩, Y.get ⟨i, hy⟩)
  | a :: _, b :: _, 0, _, _ => rfl
  | a :: X, b :: Y, i + 1, hx, hy =>
    zip_get?_of_lt X Y i (Nat.lt_of_succ_lt_succ hx) (Nat.lt_of_succ_lt_succ hy)

theorem indexBy_zip {α β : Type*} (X : List α) (Y : List β) (hlen : X.length = Y.length) :
    ∀ idx : List ℕ, (∀ i ∈ idx, i < X.length) →
      indexBy (X.zip Y) idx = (indexBy X idx).zip (indexBy Y idx)
  | [], _ => rfl
  | i :: rest, h => by
    have hx : i < X.length := h i (List.mem_cons_self i rest)
    have hy : i < Y.length := hlen ▸ hx
    have hrest : ∀ k ∈ rest, k < X.length := fun k hk => h k (List.mem_cons_of_mem i hk)
    have ih := indexBy_zip X Y hlen rest hrest
    simp only [indexBy, List.filterMap_cons,
      zip_get?_of_lt X Y i hx hy, List.get?_eq_get hx, List.get?_eq_get hy]
    simpa [indexBy] using congrArg (List.cons (X.get ⟨i, hx⟩, Y.get ⟨i, hy⟩)) ih

theorem zip_replicate_right {α β : Type*} :
    ∀ (X : List α) (c : β), X.zip (List.replicate X.length c) = X.map (fun x => (x, c))
  | [], _ => rfl
  | a :: X, c => by
    simpa [List.replicate_succ] using congrArg (List.cons (a, c)) (zip_replicate_right X c)

/-! ## Helper lemmas: the Python slices and `test_size` -/

theorem pySliceToNeg_zero {α : Type*} (l : List α) : pySliceToNeg l 0 = [] := rfl

theorem pySliceFromNeg_zero {α : Type*} (l : List α) : pySliceFromNeg l 0 = l := rfl

theorem length_pySliceToNeg {α : Type*} (l : List α) (t : ℕ) (ht : t ≠ 0) :
    (pySliceToNeg l t).length = l.length - t := by
  rw [pySliceToNeg, if_neg ht, List.length_take]
  exact Nat.min_eq_left (Nat.sub_le _ _)

theorem length_pySliceFromNeg {α : Type*} (l : List α) (t : ℕ) (ht : t ≠ 0)
    (h : t ≤ l.length) : (pySliceFromNeg l t).length = t := by
  rw [pySliceFromNeg, if_neg ht, List.length_drop]
  omega

theorem pySlice_append {α : Type*} (l : List α) (t : ℕ) :
    pySliceToNeg l t ++ pySliceFromNeg l t = l := by
  by_cases ht : t = 0
  · simp [ht, pySliceToNeg_zero, pySliceFromNeg_zero]
  · rw [pySliceToNeg, pySliceFromNeg, if_neg ht, if_neg ht]
    exact List.take_append_drop _ l

theorem pySliceToNeg_subset {α : Type*} (l : List α) (t : ℕ) :
    pySliceToNeg l t ⊆ l := by
  by_cases ht : t = 0
  · simp [ht, pySliceToNeg_zero]
  · rw [pySliceToNeg, if_neg ht]; exact List.take_subset _ l

theorem pySliceFromNeg_subset {α : Type*} (l : List α) (t : ℕ) :
    pySliceFromNeg l t ⊆ l := by
  by_cases ht : t = 0
  · simp [ht, pySliceFromNeg_zero]
  · rw [pySliceFromNeg, if_neg ht]; exact List.drop_subset _ l

theorem pyTestSize_le (n : ℕ) (split : ℚ) (h0 : 0 ≤ split) (h3 : split ≤ 3 / 10) :
    pyTestSize n split ≤ n := by
  have hq0 : 0 ≤ (n : ℚ) * split := mul_nonneg (Nat.cast_nonneg n) h0
  rw [pyTestSize, pyInt, if_pos hq0, Int.toNat_le]
  calc ⌊(n : ℚ) * split⌋ ≤ ⌊(n : ℚ)⌋ := by
        apply Int.floor_le_floor
        nlinarith [Nat.cast_nonneg (α := ℚ) n]
    _ = (n : ℤ) := Int.floor_natCast n

/-! ## Helper lemmas: the learning-rate schedule -/

theorem Trainer.lrSchedule_closed_form (lr0 : ℚ) (decay : ℕ) :
    ∀ e, Trainer.lrSchedule lr0 decay e =
      lr0 / 3 ^ ((Finset.Icc 1 e).filter (fun k => k % decay = 0)).card
  | 0 => by simp [Trainer.lrSchedule]
  | e + 1 => by
    have ih := Trainer.lrSchedule_closed_form lr0 decay e
    have hicc : Finset.Icc 1 (e + 1) = insert (e + 1) (Finset.Icc 1 e) :=
      (Nat.Icc_insert_succ_right (by omega)).symm
    have hnotmem : e + 1 ∉ (Finset.Icc 1 e).filter (fun k => k % decay = 0) := by
      intro hmem
      have := Finset.mem_of_mem_filter _ hmem
      simp [Finset.mem_Icc] at this
    rw [Trainer.lrSchedule, hicc, Finset.filter_insert]
    by_cases hd : (e + 1) % decay = 0
    · rw [if_pos hd, if_pos hd, Finset.card_insert_of_not_mem hnotmem, ih,
        pow_succ, ← div_div]
    · rw [if_neg hd, if_neg hd, ih]

/-! ## Helper lemmas: the epoch loss accumulator -/

theorem Trainer.epochTotLoss_eq_sum (l : List ℚ) : Trainer.epochTotLoss l = l.sum := by
  rw [List.sum_eq_foldl]; rfl

/-! ## Helper lemmas: `np.argmax` -/

theorem Trainer.npArgmaxGo_spec (l : List ℚ) :
    ∀ (tl : List ℚ) (i bi : ℕ), bi < l.length → tl = l.drop i →
      (∀ j, j < i → l.getD j 0 ≤ l.getD bi 0) →
      Trainer.npArgmaxGo tl (l.getD bi 0) bi i < l.length ∧
      ∀ j, j < l.length →
        l.getD j 0 ≤ l.getD (Trainer.npArgmaxGo tl (l.getD bi 0) bi i) 0
  | [], i, bi, hbi, htl, hinv => by
    refine ⟨by simpa [Trainer.npArgmaxGo] using hbi, fun j hj => ?_⟩
    have hle : l.length ≤ i := by
      by_contra hlt
      push_neg at hlt
      have hne : l.drop i ≠ [] := by
        intro hnil
        have := List.drop_eq_nil_iff_le.mp hnil
        omega
      exact hne htl.symm
    simpa [Trainer.npArgmaxGo] using hinv j (lt_of_lt_of_le hj hle)
  | x :: tl', i, bi, hbi, htl, hinv => by
    have hget : l.get? i = some x := by
      have hd := List.get?_drop l i 0
      rw [← htl] at hd
      simpa using hd.symm
    obtain ⟨hi, hgetval⟩ := List.get?_eq_some.mp hget
    have hgetD : l.getD i 0 = x := by
      show (l.get? i).getD 0 = x
      rw [hget]; rfl
    have htl' : tl' = l.drop (i + 1) := by
      have hdd : l.drop (i + 1) = (l.drop i).drop 1 := (List.drop_drop 1 i l).symm
      rw [hdd, ← htl]
      rfl
    have hstep : Trainer.npArgmaxGo (x :: tl') (l.getD bi 0) bi i =
        if l.getD bi 0 < x then Trainer.npArgmaxGo tl' x i (i + 1)
        else Trainer.npArgmaxGo tl' (l.getD bi 0) bi (i + 1) := rfl
    rw [hstep]
    by_cases hcmp : l.getD bi 0 < x
    · rw [if_pos hcmp, ← hgetD]
      refine Trainer.npArgmaxGo_spec l tl' (i + 1) i hi htl' (fun j hj => ?_)
      rcases Nat.lt_succ_iff_lt_or_eq.mp hj with hj' | rfl
      · exact le_trans (hinv j hj') (le_of_lt (hgetD ▸ hcmp))
      · exact le_rfl
    · rw [if_neg hcmp]
      refine Trainer.npArgmaxGo_spec l tl' (i + 1) bi hbi htl' (fun j hj => ?_)
      rcases Nat.lt_succ_iff_lt_or_eq.mp hj with hj' | rfl
      · exact hinv j hj'
      · rw [hgetD]; exact not_lt.mp hcmp

theorem Trainer.npArgmax_spec (row : List ℚ) (h : row ≠ []) :
    Trainer.npArgmax row < row.length ∧
      ∀ j, j < row.length → row.getD j 0 ≤ row.getD (Trainer.npArgmax row) 0 := by
  match row, h with
  | a :: tl, _ =>
    have h0 : (0 : ℕ) < (a :: tl).length := Nat.succ_pos _
    have hs := Trainer.npArgmaxGo_spec (a :: tl) tl 1 0 h0 rfl
      (fun j hj => by rw [Nat.lt_one_iff.mp hj])
    simpa [Trainer.npArgmax] using hs

/-! ## Helper lemmas: `countMatches` -/

theorem Trainer.countMatches_le : ∀ p y : List ℕ, Trainer.countMatches p y ≤ y.length
  | [], y => by simp [Trainer.countMatches]
  | a :: p, [] => by simp [Trainer.countMatches]
  | a :: p, b :: y => by
    have ih := Trainer.countMatches_le p y
    simp only [Trainer.countMatches, List.zipWith_cons_cons, List.sum_cons,
      List.length_cons] at *
    by_cases hab : a = b <;> simp [hab] <;> omega

theorem Trainer.countMatches_eq_length_iff :
    ∀ p y : List ℕ, p.length = y.length →
      (Trainer.countMatches p y = y.length ↔ p = y)
  | [], [], _ => by simp [Trainer.countMatches]
  | a :: p, b :: y, h => by
    have hlen : p.length = y.length := Nat.succ_injective h
    have ih := Trainer.countMatches_eq_length_iff p y hlen
    have hle := Trainer.countMatches_le p y
    have hcons : Trainer.countMatches (a :: p) (b :: y) =
        (if a = b then 1 else 0) + Trainer.countMatches p y := by
      simp [Trainer.countMatches]
    constructor
    · intro hsum
      rw [hcons, List.length_cons] at hsum
      by_cases hab : a = b
      · rw [if_pos hab] at hsum
        have hpy : Trainer.countMatches p y = y.length := by omega
        rw [hab, ih.mp hpy]
      · rw [if_neg hab] at hsum
        omega
    · intro he
      injection he with h1 h2
      subst h1; subst h2
      rw [hcons, if_pos rfl, ih.mpr rfl, List.length_cons]
      omega

theorem Trainer.countMatches_eq_filter :
    ∀ p y : List ℕ, p.length = y.length →
      Trainer.countMatches p y =
        ((List.range y.length).filter fun i => p.getD i 0 = y.getD i 0).length
  | [], [], _ => by simp [Trainer.countMatches]
  | a :: p, b :: y, h => by
    have hlen : p.length = y.length := Nat.succ_injective h
    have ih := Trainer.countMatches_eq_filter p y hlen
    show (if a = b then 1 else 0) + Trainer.countMatches p y = _
    rw [List.length_cons, List.range_succ_eq_map, List.filter_cons]
    by_cases hab : a = b <;>
      simp [hab, List.map_filter, Function.comp_def, ih, Nat.add_comm]

/-! ## Helper lemmas: the shape of `buildRaw` and `get_dataset` -/

theorem buildRaw_xtr {α : Type*} (sig bkg : List α) (split : ℚ) :
    (buildRaw sig bkg split).xtr =
      pySliceToNeg (npShuffle 0 sig).1 (pyTestSize sig.length split) ++
        pySliceToNeg (npShuffle (npShuffle 0 sig).2 bkg).1 (pyTestSize bkg.length split) :=
  rfl

theorem buildRaw_ytr {α : Type*} (sig bkg : List α) (split : ℚ) :
    (buildRaw sig bkg split).ytr =
      List.replicate (sig.length - pyTestSize sig.length split) 0 ++
        List.replicate (bkg.length - pyTestSize bkg.length split) 1 :=
  rfl

theorem buildRaw_xte {α : Type*} (sig bkg : List α) (split : ℚ) :
    (buildRaw sig bkg split).xte =
      pySliceFromNeg (npShuffle 0 sig).1 (pyTestSize sig.length split) ++
        pySliceFromNeg (npShuffle (npShuffle 0 sig).2 bkg).1 (pyTestSize bkg.length split) :=
  rfl

theorem buildRaw_yte {α : Type*} (sig bkg : List α) (split : ℚ) :
    (buildRaw sig bkg split).yte =
      List.replicate (pyTestSize sig.length split) 0 ++
        List.replicate (pyTestSize bkg.length split) 1 :=
  rfl

theorem finalShuffle_eq {α : Type*} (raw : RawSplit α) :
    finalShuffle raw =
      ((indexBy raw.xtr (npPermutation raw.rng raw.xtr.length).1,
        indexBy raw.ytr (npPermutation raw.rng raw.xtr.length).1),
       (indexBy raw.xte
          (npPermutation (npPermutation raw.rng raw.xtr.length).2 raw.xte.length).1,
        indexBy raw.yte
          (npPermutation (npPermutation raw.rng raw.xtr.length).2 raw.xte.length).1)) :=
  rfl

theorem sliceTrainLen {α : Type*} (l : List α) (s t : ℕ) (ht : t ≤ l.length)
    (hok : l ≠ [] → 1 ≤ t) :
    (pySliceToNeg (npShuffle s l).1 t).length = l.length - t := by
  by_cases hl : l = []
  · subst hl
    have ht0 : t = 0 := by simpa using ht
    subst ht0
    rw [pySliceToNeg_zero]
    rfl
  · have ht1 := hok hl
    rw [length_pySliceToNeg _ _ (by omega), npShuffle_length]

theorem sliceTestLen {α : Type*} (l : List α) (s t : ℕ) (ht : t ≤ l.length)
    (hok : l ≠ [] → 1 ≤ t) :
    (pySliceFromNeg (npShuffle s l).1 t).length = t := by
  by_cases hl : l = []
  · subst hl
    have ht0 : t = 0 := by simpa using ht
    subst ht0
    rw [pySliceFromNeg_zero, npShuffle_length]
    rfl
  · have ht1 := hok hl
    rw [length_pySliceFromNeg _ _ (by omega) (by rw [npShuffle_length]; exact ht)]

theorem sliceTrainLen_le {α : Type*} (l : List α) (s t : ℕ) :
    (pySliceToNeg (npShuffle s l).1 t).length ≤ l.length - t := by
  by_cases ht : t = 0
  · subst ht; rw [pySliceToNeg_zero]; exact Nat.zero_le _
  · rw [length_pySliceToNeg _ _ ht, npShuffle_length]

theorem buildRaw_asserts_pass {α : Type*} (sig bkg : List α) (split : ℚ)
    (h0 : 0 ≤ split) (h3 : split ≤ 3 / 10)
    (hsig : sig ≠ [] → 1 ≤ pyTestSize sig.length split)
    (hbkg : bkg ≠ [] → 1 ≤ pyTestSize bkg.length split) :
    (buildRaw sig bkg split).ytr.length = (buildRaw sig bkg split).xtr.length ∧
      (buildRaw sig bkg split).yte.length = (buildRaw sig bkg split).xte.length := by
  have ht0 := pyTestSize_le sig.length split h0 h3
  have ht1 := pyTestSize_le bkg.length split h0 h3
  rw [buildRaw_xtr, buildRaw_ytr, buildRaw_xte, buildRaw_yte]
  simp only [List.length_append, List.length_replicate]
  rw [sliceTrainLen sig 0 _ ht0 hsig, sliceTrainLen bkg _ _ ht1 hbkg,
    sliceTestLen sig 0 _ ht0 hsig, sliceTestLen bkg _ _ ht1 hbkg]
  exact ⟨rfl, rfl⟩

theorem buildRaw_assert_fails {α : Type*} (sig bkg : List α) (split : ℚ)
    (h0 : 0 ≤ split) (h3 : split ≤ 3 / 10)
    (hbad : (sig ≠ [] ∧ pyTestSize sig.length split = 0) ∨
      (bkg ≠ [] ∧ pyTestSize bkg.length split = 0)) :
    (buildRaw sig bkg split).xtr.length < (buildRaw sig bkg split).ytr.length := by
  have ht0 := pyTestSize_le sig.length split h0 h3
  have ht1 := pyTestSize_le bkg.length split h0 h3
  have hA := sliceTrainLen_le sig 0 (pyTestSize sig.length split)
  have hB := sliceTrainLen_le bkg (npShuffle 0 sig).2 (pyTestSize bkg.length split)
  rw [buildRaw_xtr, buildRaw_ytr]
  simp only [List.length_append, List.length_replicate]
  rcases hbad with ⟨hne, hz⟩ | ⟨hne, hz⟩
  · have hlen : 1 ≤ sig.length := by
      cases sig with
      | nil => exact absurd rfl hne
      | cons a l => exact Nat.succ_pos _
    rw [hz, pySliceToNeg_zero]
    simp only [List.length_nil]
    omega
  · have hlen : 1 ≤ bkg.length := by
      cases bkg with
      | nil => exact absurd rfl hne
      | cons a l => exact Nat.succ_pos _
    rw [hz, pySliceToNeg_zero]
    simp only [List.length_nil]
    omega

theorem get_dataset_eq_ok {α : Type*} (rng0 : ℕ) (sig bkg : List α) (split : ℚ)
    (h0 : 0 ≤ split) (h3 : split ≤ 3 / 10)
    (hsig : sig ≠ [] → 1 ≤ pyTestSize sig.length split)
    (hbkg : bkg ≠ [] → 1 ≤ pyTestSize bkg.length split) :
    get_dataset rng0 sig bkg split = Except.ok (finalShuffle (buildRaw sig bkg split)) := by
  rw [get_dataset, if_pos ⟨h0, h3⟩,
    if_pos (buildRaw_asserts_pass sig bkg split h0 h3 hsig hbkg)]

theorem get_dataset_eq_error_of_not_range {α : Type*} (rng0 : ℕ) (sig bkg : List α)
    (split : ℚ) (h : ¬(0 ≤ split ∧ split ≤ 3 / 10)) :
    get_dataset rng0 sig bkg split = Except.error "AssertionError" := by
  rw [get_dataset, if_neg h]

theorem get_dataset_eq_error_of_bad_tree {α : Type*} (rng0 : ℕ) (sig bkg : List α)
    (split : ℚ) (h0 : 0 ≤ split) (h3 : split ≤ 3 / 10)
    (hbad : (sig ≠ [] ∧ pyTestSize sig.length split = 0) ∨
      (bkg ≠ [] ∧ pyTestSize bkg.length split = 0)) :
    get_dataset rng0 sig bkg split = Except.error "AssertionError" := by
  rw [get_dataset, if_pos ⟨h0, h3⟩, if_neg]
  rintro ⟨h1, -⟩
  have := buildRaw_assert_fails sig bkg split h0 h3 hbad
  omega

theorem sliceTestLen_ge {α : Type*} (l : List α) (s t : ℕ) (ht : t ≤ l.length) :
    t ≤ (pySliceFromNeg (npShuffle s l).1 t).length := by
  by_cases h : t = 0
  · subst h; exact Nat.zero_le _
  · rw [length_pySliceFromNeg _ _ h (by rw [npShuffle_length]; exact ht)]

theorem raw_part_lengths {α : Type*} (sig bkg : List α) (split : ℚ)
    (h0 : 0 ≤ split) (h3 : split ≤ 3 / 10)
    (htr : (buildRaw sig bkg split).ytr.length = (buildRaw sig bkg split).xtr.length)
    (hte : (buildRaw sig bkg split).yte.length = (buildRaw sig bkg split).xte.length) :
    (pySliceToNeg (npShuffle 0 sig).1 (pyTestSize sig.length split)).length
        = sig.length - pyTestSize sig.length split ∧
    (pySliceToNeg (npShuffle (npShuffle 0 sig).2 bkg).1
        (pyTestSize bkg.length split)).length
        = bkg.length - pyTestSize bkg.length split ∧
    (pySliceFromNeg (npShuffle 0 sig).1 (pyTestSize sig.length split)).length
        = pyTestSize sig.length split ∧
    (pySliceFromNeg (npShuffle (npShuffle 0 sig).2 bkg).1
        (pyTestSize bkg.length split)).length
        = pyTestSize bkg.length split := by
  have ht0 := pyTestSize_le sig.length split h0 h3
  have ht1 := pyTestSize_le bkg.length split h0 h3
  have hA := sliceTrainLen_le sig 0 (pyTestSize sig.length split)
  have hB := sliceTrainLen_le bkg (npShuffle 0 sig).2 (pyTestSize bkg.length split)
  have hC := sliceTestLen_ge sig 0 _ ht0
  have hD := sliceTestLen_ge bkg (npShuffle 0 sig).2 _ ht1
  rw [buildRaw_xtr, buildRaw_ytr] at htr
  rw [buildRaw_xte, buildRaw_yte] at hte
  simp only [List.length_append, List.length_replicate] at htr hte
  omega

theorem indexBy_zip_perm {α : Type*} (Xs : List α) (Ys : List ℕ) (r n : ℕ)
    (hlen : Ys.length = Xs.length) (hn : n = Xs.length) :
    ((indexBy Xs (npPermutation r n).1).zip (indexBy Ys (npPermutation r n).1)).Perm
      (Xs.zip Ys) := by
  have hperm : (npPermutation r n).1.Perm (List.range n) := npPermutation_perm r n
  have hmem : ∀ i ∈ (npPermutation r n).1, i < Xs.length := by
    intro i hi
    have hmr := hperm.mem_iff.mp hi
    rw [List.mem_range] at hmr
    omega
  rw [← indexBy_zip Xs Ys hlen.symm _ hmem]
  apply indexBy_perm
  rw [List.length_zip, hlen, min_self, ← hn]
  exact hperm

theorem raw_zip_pairs {α : Type*} (A B : List α) (a b : ℕ)
    (hA : A.length = a) (hB : B.length = b) (c d : ℕ) :
    (A ++ B).zip (List.replicate a c ++ List.replicate b d) =
      A.map (fun x => (x, c)) ++ B.map (fun x => (x, d)) := by
  subst hA; subst hB
  rw [List.zip_append (by rw [List.length_replicate]), zip_replicate_right,
    zip_replicate_right]

/-! ## The claims -/

/-- C1: In `Trainer.train`, for every epoch index `e` from 1 to `epochs`, the
learning rate used during epoch `e` equals the initial `lr` divided by 3 raised
to the number of multiples of `decay` in `[1, e]`: `lr` is divided by 3 at the
start of each epoch whose index is an exact multiple of `decay` (so epoch
`decay` itself already trains at `lr/3`), and is unchanged at every other
epoch. -/
theorem lr_decay_schedule (lr0 : ℚ) (decay epochs e : ℕ)
    (hdecay : 1 ≤ decay) (he1 : 1 ≤ e) (he2 : e ≤ epochs) :
    Trainer.lrSchedule lr0 decay e =
      lr0 / 3 ^ ((Finset.Icc 1 e).filter (fun k => k % decay = 0)).card ∧
    (e % decay = 0 →
      Trainer.lrSchedule lr0 decay e = Trainer.lrSchedule lr0 decay (e - 1) / 3) ∧
    (e % decay ≠ 0 →
      Trainer.lrSchedule lr0 decay e = Trainer.lrSchedule lr0 decay (e - 1)) := by
  obtain ⟨e', rfl⟩ : ∃ e', e = e' + 1 := ⟨e - 1, by omega⟩
  refine ⟨Trainer.lrSchedule_closed_form lr0 decay (e' + 1), fun hd => ?_, fun hd => ?_⟩
  · rw [Trainer.lrSchedule, if_pos hd, Nat.add_sub_cancel]
  · rw [Trainer.lrSchedule, if_neg hd, Nat.add_sub_cancel]

/-- Witness for C1 at `lr0 = 729`, `decay = 2`, `epochs = 10`, `e = 6`. -/
theorem lr_decay_schedule_witness :
    ((1 : ℕ) ≤ 2 ∧ (1 : ℕ) ≤ 6 ∧ (6 : ℕ) ≤ 10) ∧
    (Trainer.lrSchedule 729 2 6 =
      729 / 3 ^ ((Finset.Icc 1 6).filter (fun k => k % 2 = 0)).card ∧
    (6 % 2 = 0 → Trainer.lrSchedule 729 2 6 = Trainer.lrSchedule 729 2 5 / 3) ∧
    (6 % 2 ≠ 0 → Trainer.lrSchedule 729 2 6 = Trainer.lrSchedule 729 2 5)) :=
  ⟨by decide, lr_decay_schedule 729 2 10 6 (by decide) (by decide) (by decide)⟩

/-- C2 (counterexample): the claim says the loss value logged for an epoch
equals the arithmetic mean of the per-batch losses; but the source logs
`float('%.7f' % tot_loss)`, so for batch losses `[1, 0, 0]` the logged value is
`0.3333333`, not the exact mean `1/3`. -/
theorem logged_loss_not_exact_mean :
    Trainer.loggedEpochLoss [1, 0, 0] ≠
      [(1 : ℚ), 0, 0].sum / (([(1 : ℚ), 0, 0].length : ℕ) : ℚ) := by
  have h1 : Trainer.loggedEpochLoss [1, 0, 0] = Trainer.round7 (1 / 3) := by
    norm_num [Trainer.loggedEpochLoss, Trainer.epochTotLoss]
  rw [h1, Trainer.round7, round_eq]
  norm_num

/-- C2 (amended): the loss value logged for each epoch equals the arithmetic
mean of the per-batch loss values — the sum of the batch losses divided by the
number of batches `len(trainloader)`, not by the number of training samples —
rounded to 7 decimal places by the `'%.7f'` format. -/
theorem logged_loss_is_rounded_batch_mean (losses : List ℚ) (n b : ℕ)
    (hb : 1 ≤ b) (hlen : losses.length = Trainer.numBatches n b) :
    Trainer.loggedEpochLoss losses =
      Trainer.round7 (losses.sum / (Trainer.numBatches n b : ℚ)) := by
  rw [Trainer.loggedEpochLoss, Trainer.epochTotLoss_eq_sum, hlen]

/-- Witness for the amended C2: 3 samples in batches of 2 give 2 batches. -/
theorem logged_loss_is_rounded_batch_mean_witness :
    ((1 : ℕ) ≤ 2 ∧ [(1 : ℚ), 2].length = Trainer.numBatches 3 2) ∧
    Trainer.loggedEpochLoss [1, 2] =
      Trainer.round7 ([(1 : ℚ), 2].sum / (Trainer.numBatches 3 2 : ℚ)) :=
  ⟨⟨by decide, by decide⟩,
    logged_loss_is_rounded_batch_mean [1, 2] 3 2 (by decide) (by decide)⟩

/-- C3: for every input batch, `Trainer.predict` returns one label per input
row, and for each row the label is `np.argmax` of the network's output row:
an index below the row's length at which the row attains its maximum. -/
theorem predict_is_rowwise_argmax {α : Type*} (net : List α → List (List ℚ))
    (X : List α) (hnet : (net X).length = X.length) :
    (Trainer.predict net X).length = X.length ∧
    ∀ i, i < X.length →
      (Trainer.predict net X).getD i 0 = Trainer.npArgmax ((net X).getD i []) ∧
      ((net X).getD i [] ≠ [] →
        Trainer.npArgmax ((net X).getD i []) < ((net X).getD i []).length ∧
        ∀ j, j < ((net X).getD i []).length →
          ((net X).getD i []).getD j 0 ≤
            ((net X).getD i []).getD (Trainer.npArgmax ((net X).getD i [])) 0) := by
  refine ⟨by rw [Trainer.predict, List.length_map, hnet], fun i hi => ?_⟩
  have hi' : i < (net X).length := by rw [hnet]; exact hi
  constructor
  · show ((Trainer.predict net X).get? i).getD 0 = _
    rw [Trainer.predict, List.get?_map, List.get?_eq_get hi']
    show Trainer.npArgmax ((net X).get ⟨i, hi'⟩) = _
    congr 1
    show _ = ((net X).get? i).getD []
    rw [List.get?_eq_get hi']
    rfl
  · intro hne
    exact Trainer.npArgmax_spec ((net X).getD i []) hne

/-- Witness for C3: a constant one-row network on a one-row batch. -/
theorem predict_is_rowwise_argmax_witness :
    (Trainer.predict (fun _ : List ℕ => [[(2 : ℚ), 1]]) [7]).length = [(7 : ℕ)].length ∧
    ∀ i, i < [(7 : ℕ)].length →
      (Trainer.predict (fun _ : List ℕ => [[(2 : ℚ), 1]]) [7]).getD i 0 =
        Trainer.npArgmax ([[(2 : ℚ), 1]].getD i []) ∧
      ([[(2 : ℚ), 1]].getD i [] ≠ [] →
        Trainer.npArgmax ([[(2 : ℚ), 1]].getD i []) < ([[(2 : ℚ), 1]].getD i []).length ∧
        ∀ j, j < ([[(2 : ℚ), 1]].getD i []).length →
          ([[(2 : ℚ), 1]].getD i []).getD j 0 ≤
            ([[(2 : ℚ), 1]].getD i []).getD (Trainer.npArgmax ([[(2 : ℚ), 1]].getD i [])) 0) :=
  predict_is_rowwise_argmax (fun _ : List ℕ => [[(2 : ℚ), 1]]) [7] rfl

/-- C4: for every non-empty label vector `Y` and input `X` of the same length,
`Trainer.score X Y` is the number of positions at which `predict X` equals `Y`
divided by `len(Y)`; it lies in `[0, 1]` and equals 1 exactly when every
prediction matches its label. -/
theorem score_is_accuracy {α : Type*} (net : List α → List (List ℚ)) (X : List α)
    (Y : List ℕ) (hnet : (net X).length = X.length) (hXY : X.length = Y.length)
    (hY : Y ≠ []) :
    Trainer.score net X Y =
      (((List.range Y.length).filter
          fun i => (Trainer.predict net X).getD i 0 = Y.getD i 0).length : ℚ) /
        (Y.length : ℚ) ∧
    0 ≤ Trainer.score net X Y ∧ Trainer.score net X Y ≤ 1 ∧
    (Trainer.score net X Y = 1 ↔ Trainer.predict net X = Y) := by
  have hplen : (Trainer.predict net X).length = Y.length := by
    rw [Trainer.predict, List.length_map, hnet, hXY]
  have hY0 : 0 < Y.length := List.length_pos.mpr hY
  have hY0' : (0 : ℚ) < (Y.length : ℚ) := by exact_mod_cast hY0
  have hle := Trainer.countMatches_le (Trainer.predict net X) Y
  refine ⟨?_, ?_, ?_, ?_⟩
  · rw [Trainer.score, Trainer.countMatches_eq_filter _ _ hplen]
  · exact div_nonneg (by positivity) (le_of_lt hY0')
  · rw [Trainer.score, div_le_one hY0']
    exact_mod_cast hle
  · rw [Trainer.score, div_eq_one_iff_eq (ne_of_gt hY0'), Nat.cast_inj]
    exact Trainer.countMatches_eq_length_iff _ _ hplen

/-- Witness for C4: a perfect single prediction scores 1. -/
theorem score_is_accuracy_witness :
    Trainer.score (fun _ : List ℕ => [[(0 : ℚ), 5]]) [3] [1] =
      (((List.range [(1 : ℕ)].length).filter
          fun i => (Trainer.predict (fun _ : List ℕ => [[(0 : ℚ), 5]]) [3]).getD i 0 =
            [(1 : ℕ)].getD i 0).length : ℚ) / ([(1 : ℕ)].length : ℚ) ∧
    0 ≤ Trainer.score (fun _ : List ℕ => [[(0 : ℚ), 5]]) [3] [1] ∧
    Trainer.score (fun _ : List ℕ => [[(0 : ℚ), 5]]) [3] [1] ≤ 1 ∧
    (Trainer.score (fun _ : List ℕ => [[(0 : ℚ), 5]]) [3] [1] = 1 ↔
      Trainer.predict (fun _ : List ℕ => [[(0 : ℚ), 5]]) [3] = [1]) :=
  score_is_accuracy (fun _ : List ℕ => [[(0 : ℚ), 5]]) [3] [1] rfl rfl (by decide)

/-- C5: `get_dataset` is deterministic: its result does not depend on the
incoming state of the global random generator, because the source reseeds with
the fixed seed 0 (`np.random.seed(0)`) before the shuffles and permutations;
two runs on the same tree contents and the same `test_split` return identical
data element for element. -/
theorem get_dataset_deterministic {α : Type*} (r1 r2 : ℕ) (sig bkg : List α)
    (split : ℚ) :
    get_dataset r1 sig bkg split = get_dataset r2 sig bkg split := rfl

/-- C7: checkpoint round-trip: saving a trainer's state dict and loading the
checkpoint into a trainer of the same architecture (same state-dict keys)
leaves that trainer's network with exactly the saved state dict. -/
theorem checkpoint_roundtrip (t t2 : Trainer.NetState) (fs : Trainer.Storage)
    (p : String)
    (harch : t2.stateDict.map Prod.fst = t.stateDict.map Prod.fst) :
    Trainer.load_model t2 (Trainer.save_model t fs p) p =
      Except.ok ⟨t.stateDict⟩ := by
  simp [Trainer.load_model, Trainer.save_model, Trainer.torchSave,
    Trainer.load_state_dict, harch]

/-- Witness for C7: one weight tensor round-trips through a checkpoint. -/
theorem checkpoint_roundtrip_witness :
    Trainer.load_model ⟨[("w", [0, 0])]⟩
        (Trainer.save_model ⟨[("w", [1, 2])]⟩ (fun _ => none) "ckpt.pth") "ckpt.pth" =
      Except.ok ⟨[("w", [(1 : ℚ), 2])]⟩ :=
  checkpoint_roundtrip ⟨[("w", [1, 2])]⟩ ⟨[("w", [0, 0])]⟩ (fun _ => none) "ckpt.pth" rfl

/-- C6 (counterexample): the claim says that for every `test_split` in
`[0, 0.3]` each `n`-entry tree sends `int(n * test_split)` entries to the test
set and the remaining `n - int(n * test_split)` to the train set; but with two
3-entry trees and `test_split = 1/5` the computed test size is `int(0.6) = 0`,
`data[:-0]` is empty, the length assertion fails, and `get_dataset` raises
`AssertionError` instead of returning any splits. -/
theorem get_dataset_split_sizes_cex :
    (0 ≤ (1 : ℚ) / 5 ∧ (1 : ℚ) / 5 ≤ 3 / 10) ∧
    get_dataset 0 [(1 : ℕ), 2, 3] [4, 5, 6] (1 / 5) = Except.error "AssertionError" := by
  refine ⟨by norm_num, ?_⟩
  apply get_dataset_eq_error_of_bad_tree 0 _ _ _ (by norm_num) (by norm_num)
  left
  refine ⟨by simp, ?_⟩
  show pyTestSize 3 (1 / 5) = 0
  norm_num [pyTestSize, pyInt]

/-- C6 (amended): for every `test_split` in `[0, 0.3]` such that every
nonempty tree has computed test size `int(n * test_split) ≥ 1`, `get_dataset`
returns splits in which each tree contributes exactly `int(n * test_split)`
entries to the test set and the remaining `n - int(n * test_split)` entries to
the train set, and the two returned splits together contain every entry of
both trees exactly once. -/
theorem get_dataset_split_sizes {α : Type*} (rng0 : ℕ) (sig bkg : List α) (split : ℚ)
    (h0 : 0 ≤ split) (h3 : split ≤ 3 / 10)
    (hsig : sig ≠ [] → 1 ≤ pyTestSize sig.length split)
    (hbkg : bkg ≠ [] → 1 ≤ pyTestSize bkg.length split) :
    ∃ Xtr Ytr Xte Yte,
      get_dataset rng0 sig bkg split = Except.ok ((Xtr, Ytr), (Xte, Yte)) ∧
      ∃ sigTr sigTe bkgTr bkgTe : List α,
        sigTe.length = pyTestSize sig.length split ∧
        bkgTe.length = pyTestSize bkg.length split ∧
        sigTr.length = sig.length - pyTestSize sig.length split ∧
        bkgTr.length = bkg.length - pyTestSize bkg.length split ∧
        (sigTr ++ sigTe).Perm sig ∧ (bkgTr ++ bkgTe).Perm bkg ∧
        Xtr.Perm (sigTr ++ bkgTr) ∧ Xte.Perm (sigTe ++ bkgTe) ∧
        ((Xtr ++ Xte : List α) : Multiset α) = (sig : Multiset α) + (bkg : Multiset α) := by
  have ht0 := pyTestSize_le sig.length split h0 h3
  have ht1 := pyTestSize_le bkg.length split h0 h3
  have hok := get_dataset_eq_ok rng0 sig bkg split h0 h3 hsig hbkg
  have hass := buildRaw_asserts_pass sig bkg split h0 h3 hsig hbkg
  refine ⟨_, _, _, _, by rw [hok, finalShuffle_eq], ?_⟩
  refine ⟨pySliceToNeg (npShuffle 0 sig).1 (pyTestSize sig.length split),
    pySliceFromNeg (npShuffle 0 sig).1 (pyTestSize sig.length split),
    pySliceToNeg (npShuffle (npShuffle 0 sig).2 bkg).1 (pyTestSize bkg.length split),
    pySliceFromNeg (npShuffle (npShuffle 0 sig).2 bkg).1 (pyTestSize bkg.length split),
    sliceTestLen sig 0 _ ht0 hsig, sliceTestLen bkg _ _ ht1 hbkg,
    sliceTrainLen sig 0 _ ht0 hsig, sliceTrainLen bkg _ _ ht1 hbkg, ?_, ?_, ?_, ?_, ?_⟩
  · rw [pySlice_append]; exact npShuffle_perm 0 sig
  · rw [pySlice_append]; exact npShuffle_perm (npShuffle 0 sig).2 bkg
  · have h := indexBy_zip_perm (buildRaw sig bkg split).xtr (buildRaw sig bkg split).ytr
      (buildRaw sig bkg split).rng (buildRaw sig bkg split).xtr.length hass.1 rfl
    have hx : ((indexBy (buildRaw sig bkg split).xtr
        (npPermutation (buildRaw sig bkg split).rng
          (buildRaw sig bkg split).xtr.length).1)).Perm (buildRaw sig bkg split).xtr := by
      apply indexBy_perm
      exact npPermutation_perm _ _
    rw [buildRaw_xtr] at hx
    exact hx
  · have hx : ((indexBy (buildRaw sig bkg split).xte
        (npPermutation (npPermutation (buildRaw sig bkg split).rng
            (buildRaw sig bkg split).xtr.length).2
          (buildRaw sig bkg split).xte.length).1)).Perm (buildRaw sig bkg split).xte := by
      apply indexBy_perm
      exact npPermutation_perm _ _
    rw [buildRaw_xte] at hx
    exact hx
  · have hx : ((indexBy (buildRaw sig bkg split).xtr
        (npPermutation (buildRaw sig bkg split).rng
          (buildRaw sig bkg split).xtr.length).1)).Perm (buildRaw sig bkg split).xtr :=
      indexBy_perm _ _ (npPermutation_perm _ _)
    have hy : ((indexBy (buildRaw sig bkg split).xte
        (npPermutation (npPermutation (buildRaw sig bkg split).rng
            (buildRaw sig bkg split).xtr.length).2
          (buildRaw sig bkg split).xte.length).1)).Perm (buildRaw sig bkg split).xte :=
      indexBy_perm _ _ (npPermutation_perm _ _)
    have happ : (↑(pySliceToNeg (npShuffle 0 sig).1 (pyTestSize sig.length split)) :
          Multiset α) +
        ↑(pySliceFromNeg (npShuffle 0 sig).1 (pyTestSize sig.length split)) = ↑sig := by
      rw [Multiset.coe_add, pySlice_append]
      exact Multiset.coe_eq_coe.mpr (npShuffle_perm 0 sig)
    have happ2 : (↑(pySliceToNeg (npShuffle (npShuffle 0 sig).2 bkg).1
          (pyTestSize bkg.length split)) : Multiset α) +
        ↑(pySliceFromNeg (npShuffle (npShuffle 0 sig).2 bkg).1
          (pyTestSize bkg.length split)) = ↑bkg := by
      rw [Multiset.coe_add, pySlice_append]
      exact Multiset.coe_eq_coe.mpr (npShuffle_perm (npShuffle 0 sig).2 bkg)
    rw [← Multiset.coe_add, Multiset.coe_eq_coe.mpr hx, Multiset.coe_eq_coe.mpr hy,
      buildRaw_xtr, buildRaw_xte, ← Multiset.coe_add, ← Multiset.coe_add,
      ← happ, ← happ2]
    abel

/-- Witness for the amended C6: a 5-entry signal tree (test size 1) and a
10-entry background tree (test size 3) at `test_split = 3/10`. -/
theorem get_dataset_split_sizes_witness :
    ∃ Xtr Ytr Xte Yte,
      get_dataset 0 [(0 : ℕ), 1, 2, 3, 4] [10, 11, 12, 13, 14, 15, 16, 17, 18, 19]
          (3 / 10) = Except.ok ((Xtr, Ytr), (Xte, Yte)) ∧
      ∃ sigTr sigTe bkgTr bkgTe : List ℕ,
        sigTe.length = pyTestSize [(0 : ℕ), 1, 2, 3, 4].length (3 / 10) ∧
        bkgTe.length =
          pyTestSize [(10 : ℕ), 11, 12, 13, 14, 15, 16, 17, 18, 19].length (3 / 10) ∧
        sigTr.length = [(0 : ℕ), 1, 2, 3, 4].length -
          pyTestSize [(0 : ℕ), 1, 2, 3, 4].length (3 / 10) ∧
        bkgTr.length = [(10 : ℕ), 11, 12, 13, 14, 15, 16, 17, 18, 19].length -
          pyTestSize [(10 : ℕ), 11, 12, 13, 14, 15, 16, 17, 18, 19].length (3 / 10) ∧
        (sigTr ++ sigTe).Perm [(0 : ℕ), 1, 2, 3, 4] ∧
        (bkgTr ++ bkgTe).Perm [10, 11, 12, 13, 14, 15, 16, 17, 18, 19] ∧
        Xtr.Perm (sigTr ++ bkgTr) ∧ Xte.Perm (sigTe ++ bkgTe) ∧
        ((Xtr ++ Xte : List ℕ) : Multiset ℕ) =
          ([(0 : ℕ), 1, 2, 3, 4] : Multiset ℕ) +
            ([10, 11, 12, 13, 14, 15, 16, 17, 18, 19] : Multiset ℕ) :=
  get_dataset_split_sizes 0 [(0 : ℕ), 1, 2, 3, 4]
    [10, 11, 12, 13, 14, 15, 16, 17, 18, 19] (3 / 10) (by norm_num) le_rfl
    (fun _ => by norm_num [pyTestSize, pyInt])
    (fun _ => by norm_num [pyTestSize, pyInt])

/-- C8 (counterexample): the claim says `get_dataset` raises `AssertionError`
iff `test_split < 0` or `test_split > 0.3`; but for the in-range
`test_split = 1/10` with a 2-entry signal tree the computed test size is
`int(0.2) = 0` and the later length assertion raises `AssertionError`. -/
theorem get_dataset_error_iff_cex :
    (0 ≤ (1 : ℚ) / 10 ∧ (1 : ℚ) / 10 ≤ 3 / 10) ∧
    get_dataset 0 [(1 : ℕ), 2] [3] (1 / 10) = Except.error "AssertionError" := by
  refine ⟨by norm_num, ?_⟩
  apply get_dataset_eq_error_of_bad_tree 0 _ _ _ (by norm_num) (by norm_num)
  left
  refine ⟨by simp, ?_⟩
  show pyTestSize 2 (1 / 10) = 0
  norm_num [pyTestSize, pyInt]

/-- C8 (amended): `get_dataset` raises `AssertionError` iff `test_split` is
outside `[0, 0.3]` or some nonempty tree has computed test size
`int(n * test_split) = 0`; for an out-of-range `test_split` the failure comes
from the range check before any tree data is read, so the result is the same
`AssertionError` whatever the tree contents. -/
theorem get_dataset_error_characterization {α : Type*} (rng0 : ℕ) (sig bkg : List α)
    (split : ℚ) :
    ((∃ m, get_dataset rng0 sig bkg split = Except.error m) ↔
      (split < 0 ∨ 3 / 10 < split ∨
        (sig ≠ [] ∧ pyTestSize sig.length split = 0) ∨
        (bkg ≠ [] ∧ pyTestSize bkg.length split = 0))) ∧
    ((split < 0 ∨ 3 / 10 < split) →
      ∀ sig' bkg' : List α,
        get_dataset rng0 sig' bkg' split = Except.error "AssertionError") := by
  constructor
  · constructor
    · rintro ⟨m, hm⟩
      by_contra hno
      push_neg at hno
      obtain ⟨hs0, hs3, hsig, hbkg⟩ := hno
      have hok := get_dataset_eq_ok rng0 sig bkg split hs0 hs3
        (fun h => Nat.one_le_iff_ne_zero.mpr (hsig h))
        (fun h => Nat.one_le_iff_ne_zero.mpr (hbkg h))
      rw [hm] at hok
      exact Except.noConfusion hok
    · intro h
      by_cases hrange : 0 ≤ split ∧ split ≤ 3 / 10
      · rcases h with h | h | h | h
        · exact absurd hrange.1 (not_le.mpr h)
        · exact absurd hrange.2 (not_le.mpr h)
        · exact ⟨_, get_dataset_eq_error_of_bad_tree rng0 sig bkg split hrange.1
            hrange.2 (Or.inl h)⟩
        · exact ⟨_, get_dataset_eq_error_of_bad_tree rng0 sig bkg split hrange.1
            hrange.2 (Or.inr h)⟩
      · exact ⟨_, get_dataset_eq_error_of_not_range rng0 sig bkg split hrange⟩
  · intro hout sig' bkg'
    apply get_dataset_eq_error_of_not_range
    rintro ⟨h0, h3⟩
    rcases hout with h | h
    · exact absurd h0 (not_le.mpr h)
    · exact absurd h3 (not_le.mpr h)

/-- Witness for the amended C8: the out-of-range split `2/5` is rejected,
with the same error whatever tree contents are supplied. -/
theorem get_dataset_error_characterization_witness :
    get_dataset 0 [(4 : ℕ)] [] (2 / 5) = Except.error "AssertionError" :=
  (get_dataset_error_characterization 0 [(4 : ℕ)] [] (2 / 5)).2
    (Or.inr (by norm_num)) [(4 : ℕ)] []

/-- C9 (counterexample): the claim says that for a tree with computed test
size 0 `get_dataset` assigns all of that tree's entries to the test set and
none to the train set; but for the nonempty signal tree `[42]` with
`test_split = 0` the length assertion fails, so `get_dataset` raises
`AssertionError` and returns no sets at all. -/
theorem zero_testsize_raises :
    pyTestSize [(42 : ℕ)].length 0 = 0 ∧
    get_dataset 0 [(42 : ℕ)] [] 0 = Except.error "AssertionError" := by
  have hz : pyTestSize [(42 : ℕ)].length 0 = 0 := by
    norm_num [pyTestSize, pyInt]
  refine ⟨hz, ?_⟩
  apply get_dataset_eq_error_of_bad_tree 0 _ _ _ le_rfl (by norm_num)
  exact Or.inl ⟨by simp, hz⟩

/-- C9 (amended): when a tree's computed test size is 0, the train slice
`data[:-0]` is indeed empty and the test slice `data[-0:]` is the whole
shuffled tree, so inside the loop all of that tree's entries are appended to
`X_test` and none to `X_train`; but whenever any such tree — signal or
background — is nonempty, the subsequent length assertion fails, and
`get_dataset` raises `AssertionError` instead of returning those sets. -/
theorem zero_testsize_slices {α : Type*} (data sig bkg : List α) (split : ℚ)
    (rng0 : ℕ) (h0 : 0 ≤ split) (h3 : split ≤ 3 / 10)
    (hbad : (sig ≠ [] ∧ pyTestSize sig.length split = 0) ∨
      (bkg ≠ [] ∧ pyTestSize bkg.length split = 0)) :
    pySliceToNeg data 0 = [] ∧ pySliceFromNeg data 0 = data ∧
    get_dataset rng0 sig bkg split = Except.error "AssertionError" :=
  ⟨pySliceToNeg_zero data, pySliceFromNeg_zero data,
    get_dataset_eq_error_of_bad_tree rng0 sig bkg split h0 h3 hbad⟩

/-- Witness for the amended C9 at `test_split = 3/10` where only the
background tree has zero test size: a 4-entry signal tree (test size
`int(1.2) = 1`) and a nonempty 2-entry background tree (test size
`int(0.6) = 0`). -/
theorem zero_testsize_slices_witness :
    (0 ≤ (3 : ℚ) / 10 ∧ (3 : ℚ) / 10 ≤ 3 / 10 ∧
      pyTestSize [(5 : ℕ), 6].length (3 / 10) = 0) ∧
    (pySliceToNeg [(9 : ℕ)] 0 = [] ∧ pySliceFromNeg [(9 : ℕ)] 0 = [9] ∧
      get_dataset 7 [(1 : ℕ), 2, 3, 4] [5, 6] (3 / 10) = Except.error "AssertionError") := by
  have hz : pyTestSize [(5 : ℕ), 6].length (3 / 10) = 0 := by
    norm_num [pyTestSize, pyInt]
  exact ⟨⟨by norm_num, le_rfl, hz⟩,
    zero_testsize_slices [(9 : ℕ)] [1, 2, 3, 4] [5, 6] (3 / 10) 7 (by norm_num)
      le_rfl (Or.inr ⟨by simp, hz⟩)⟩

/-- C10: label-pairing invariant: whenever `get_dataset` returns, in both
returned splits the multiset of `(example, label)` pairs equals the
pre-shuffle pairing built by the per-tree loop (the two final shuffles apply
one and the same index permutation to `X` and `Y`), and every pair carries the
label of the tree its example came from: label 0 with an example of the
signal tree, or label 1 with an example of the background tree. -/
theorem label_pairing_invariant {α : Type*} (rng0 : ℕ) (sig bkg : List α)
    (split : ℚ) (Xtr Xte : List α) (Ytr Yte : List ℕ)
    (hok : get_dataset rng0 sig bkg split = Except.ok ((Xtr, Ytr), (Xte, Yte))) :
    ((Xtr.zip Ytr : List (α × ℕ)) : Multiset (α × ℕ)) =
      ↑((buildRaw sig bkg split).xtr.zip (buildRaw sig bkg split).ytr) ∧
    ((Xte.zip Yte : List (α × ℕ)) : Multiset (α × ℕ)) =
      ↑((buildRaw sig bkg split).xte.zip (buildRaw sig bkg split).yte) ∧
    (∀ pr ∈ Xtr.zip Ytr, (pr.2 = 0 ∧ pr.1 ∈ sig) ∨ (pr.2 = 1 ∧ pr.1 ∈ bkg)) ∧
    (∀ pr ∈ Xte.zip Yte, (pr.2 = 0 ∧ pr.1 ∈ sig) ∨ (pr.2 = 1 ∧ pr.1 ∈ bkg)) := by
  rw [get_dataset] at hok
  by_cases h1 : 0 ≤ split ∧ split ≤ 3 / 10
  case neg => rw [if_neg h1] at hok; exact Except.noConfusion hok
  rw [if_pos h1] at hok
  by_cases h2 : (buildRaw sig bkg split).ytr.length = (buildRaw sig bkg split).xtr.length ∧
      (buildRaw sig bkg split).yte.length = (buildRaw sig bkg split).xte.length
  case neg => rw [if_neg h2] at hok; exact Except.noConfusion hok
  rw [if_pos h2] at hok
  injection hok with hfs
  rw [finalShuffle_eq] at hfs
  injection hfs with hp1 hp2
  injection hp1 with hXtr hYtr
  injection hp2 with hXte hYte
  subst hXtr; subst hYtr; subst hXte; subst hYte
  have htrPerm := indexBy_zip_perm (buildRaw sig bkg split).xtr
    (buildRaw sig bkg split).ytr (buildRaw sig bkg split).rng
    (buildRaw sig bkg split).xtr.length h2.1 rfl
  have htePerm := indexBy_zip_perm (buildRaw sig bkg split).xte
    (buildRaw sig bkg split).yte
    (npPermutation (buildRaw sig bkg split).rng (buildRaw sig bkg split).xtr.length).2
    (buildRaw sig bkg split).xte.length h2.2 rfl
  have hparts := raw_part_lengths sig bkg split h1.1 h1.2 h2.1 h2.2
  have hzipTr : (buildRaw sig bkg split).xtr.zip (buildRaw sig bkg split).ytr =
      (pySliceToNeg (npShuffle 0 sig).1 (pyTestSize sig.length split)).map
          (fun x => (x, 0)) ++
        (pySliceToNeg (npShuffle (npShuffle 0 sig).2 bkg).1
            (pyTestSize bkg.length split)).map (fun x => (x, 1)) := by
    rw [buildRaw_xtr, buildRaw_ytr]
    exact raw_zip_pairs _ _ _ _ hparts.1 hparts.2.1 0 1
  have hzipTe : (buildRaw sig bkg split).xte.zip (buildRaw sig bkg split).yte =
      (pySliceFromNeg (npShuffle 0 sig).1 (pyTestSize sig.length split)).map
          (fun x => (x, 0)) ++
        (pySliceFromNeg (npShuffle (npShuffle 0 sig).2 bkg).1
            (pyTestSize bkg.length split)).map (fun x => (x, 1)) := by
    rw [buildRaw_xte, buildRaw_yte]
    exact raw_zip_pairs _ _ _ _ hparts.2.2.1 hparts.2.2.2 0 1
  refine ⟨Multiset.coe_eq_coe.mpr htrPerm, Multiset.coe_eq_coe.mpr htePerm, ?_, ?_⟩
  · intro pr hpr
    have hpr2 := htrPerm.subset hpr
    rw [hzipTr] at hpr2
    rcases List.mem_append.mp hpr2 with hmem | hmem
    · obtain ⟨x, hx, rfl⟩ := List.mem_map.mp hmem
      exact Or.inl ⟨rfl, (npShuffle_perm 0 sig).subset (pySliceToNeg_subset _ _ hx)⟩
    · obtain ⟨x, hx, rfl⟩ := List.mem_map.mp hmem
      exact Or.inr ⟨rfl,
        (npShuffle_perm (npShuffle 0 sig).2 bkg).subset (pySliceToNeg_subset _ _ hx)⟩
  · intro pr hpr
    have hpr2 := htePerm.subset hpr
    rw [hzipTe] at hpr2
    rcases List.mem_append.mp hpr2 with hmem | hmem
    · obtain ⟨x, hx, rfl⟩ := List.mem_map.mp hmem
      exact Or.inl ⟨rfl, (npShuffle_perm 0 sig).subset (pySliceFromNeg_subset _ _ hx)⟩
    · obtain ⟨x, hx, rfl⟩ := List.mem_map.mp hmem
      exact Or.inr ⟨rfl,
        (npShuffle_perm (npShuffle 0 sig).2 bkg).subset (pySliceFromNeg_subset _ _ hx)⟩

/-- Witness for C10 on two 4-entry trees at `test_split = 3/10` (per-tree
test size `int(1.2) = 1`), where `get_dataset` returns successfully. -/
theorem label_pairing_invariant_witness :
    (((finalShuffle (buildRaw [(1 : ℕ), 2, 3, 4] [5, 6, 7, 8] (3 / 10))).1.1.zip
        (finalShuffle (buildRaw [(1 : ℕ), 2, 3, 4] [5, 6, 7, 8] (3 / 10))).1.2 :
          List (ℕ × ℕ)) : Multiset (ℕ × ℕ)) =
      ↑((buildRaw [(1 : ℕ), 2, 3, 4] [5, 6, 7, 8] (3 / 10)).xtr.zip
        (buildRaw [(1 : ℕ), 2, 3, 4] [5, 6, 7, 8] (3 / 10)).ytr) ∧
    (((finalShuffle (buildRaw [(1 : ℕ), 2, 3, 4] [5, 6, 7, 8] (3 / 10))).2.1.zip
        (finalShuffle (buildRaw [(1 : ℕ), 2, 3, 4] [5, 6, 7, 8] (3 / 10))).2.2 :
          List (ℕ × ℕ)) : Multiset (ℕ × ℕ)) =
      ↑((buildRaw [(1 : ℕ), 2, 3, 4] [5, 6, 7, 8] (3 / 10)).xte.zip
        (buildRaw [(1 : ℕ), 2, 3, 4] [5, 6, 7, 8] (3 / 10)).yte) ∧
    (∀ pr ∈ (finalShuffle (buildRaw [(1 : ℕ), 2, 3, 4] [5, 6, 7, 8] (3 / 10))).1.1.zip
        (finalShuffle (buildRaw [(1 : ℕ), 2, 3, 4] [5, 6, 7, 8] (3 / 10))).1.2,
      (pr.2 = 0 ∧ pr.1 ∈ [(1 : ℕ), 2, 3, 4]) ∨ (pr.2 = 1 ∧ pr.1 ∈ [5, 6, 7, 8])) ∧
    (∀ pr ∈ (finalShuffle (buildRaw [(1 : ℕ), 2, 3, 4] [5, 6, 7, 8] (3 / 10))).2.1.zip
        (finalShuffle (buildRaw [(1 : ℕ), 2, 3, 4] [5, 6, 7, 8] (3 / 10))).2.2,
      (pr.2 = 0 ∧ pr.1 ∈ [(1 : ℕ), 2, 3, 4]) ∨ (pr.2 = 1 ∧ pr.1 ∈ [5, 6, 7, 8])) :=
  label_pairing_invariant 0 [(1 : ℕ), 2, 3, 4] [5, 6, 7, 8] (3 / 10) _ _ _ _
    (get_dataset_eq_ok 0 [(1 : ℕ), 2, 3, 4] [5, 6, 7, 8] (3 / 10) (by norm_num)
      le_rfl (fun _ => by norm_num [pyTestSize, pyInt])
      (fun _ => by norm_num [pyTestSize, pyInt]))
